import Mathlib

/-
Verification development for the Vermouth HTTP router.

The definitions below are a shallow embedding of the repository's Go source:
the current router implementation (the file containing `matchRoute`,
`ServeHTTP`, `Group`, `Use`, `Start`) and `context.go` (the response context).
Strings stand for Go strings and byte slices (a Go byte slice is modelled by
its UTF-8 string content; `len` on it is `String.utf8ByteSize`).  Handlers are
abstract values of a type parameter `H`; middleware values are functions
`H → H`, exactly as Go's `MiddlewareFunc func(HandlerFunc) HandlerFunc`.

Go's `strings.Split`, `strings.HasPrefix`, `strings.HasSuffix`,
`strings.TrimSuffix`, `strings.Join` and byte-slicing are embedded by the
structurally recursive helpers below (rather than by `String.splitOn` etc.,
whose well-founded recursion the kernel cannot evaluate).  The separators the
source uses — "/", " ", "\r\n", ":", "*" — are ASCII, so one Go byte is one
`Char` and the char-level helpers agree with Go's byte-level operations.
-/

/-- Worker for `splitOnChar`: `acc` holds the current field, reversed. -/
def splitOnCharAux (sep : Char) : List Char → List Char → List String
  | [], acc => [⟨acc.reverse⟩]
  | c :: cs, acc =>
    if c = sep then ⟨acc.reverse⟩ :: splitOnCharAux sep cs []
    else splitOnCharAux sep cs (c :: acc)

/-- Go `strings.Split(s, sep)` for a one-character separator: the fields around
each occurrence of `sep`, in order; `""` splits to `[""]`. -/
def splitOnChar (sep : Char) (s : String) : List String :=
  splitOnCharAux sep s.data []

/-- Worker for `splitCRLF`: `acc` holds the current line, reversed. -/
def splitCRLFAux : List Char → List Char → List String
  | [], acc => [⟨acc.reverse⟩]
  | '\r' :: '\n' :: cs, acc => ⟨acc.reverse⟩ :: splitCRLFAux cs []
  | c :: cs, acc => splitCRLFAux cs (c :: acc)

/-- Go `strings.Split(s, "\r\n")`: the lines around each CRLF, in order. -/
def splitCRLF (s : String) : List String :=
  splitCRLFAux s.data []

/-- Go `strings.HasPrefix(s, c)` for a one-character test string. -/
def strStarts (s : String) (c : Char) : Bool :=
  match s.data with
  | [] => false
  | d :: _ => d = c

/-- Go `strings.HasSuffix(s, c)` for a one-character test string. -/
def strEnds (s : String) (c : Char) : Bool :=
  match s.data.reverse with
  | [] => false
  | d :: _ => d = c

/-- Go `s[1:]`, used on segments known to start with the one-byte ":". -/
def strTail (s : String) : String :=
  ⟨s.data.drop 1⟩

/-- Go `strings.TrimSuffix(s, "*")`: removes one trailing `*` when present. -/
def trimStar (s : String) : String :=
  if strEnds s '*' then ⟨s.data.dropLast⟩ else s

/-- Go `strings.Join(l, "/")`. -/
def joinSlash : List String → String
  | [] => ""
  | [s] => s
  | s :: rest => s ++ "/" ++ joinSlash rest

/-- Outcome of the segment-walking loop inside `matchRoute`:
`fail` is the loop's early `return nil, false`; `hit params` is the early
`return params, true` taken at a `:name*` wildcard segment; `done params` is
falling off the end of the loop (the final segment-count gate still pending). -/
inductive MatchOutcome where
  | fail : MatchOutcome
  | hit : List (String × String) → MatchOutcome
  | done : List (String × String) → MatchOutcome
deriving DecidableEq, Repr

/-- The `for i, part := range patternParts` loop of `matchRoute`.
`pathParts` is the split path; `parts` the still-unprocessed pattern segments;
`i` the current index; `params` the Go map built so far.  The Go map write
`params[key] = v` is modelled by consing, so that `List.lookup` (first hit)
returns the most recent write, exactly like a Go map read.
The wildcard branch slices `pathParts[i:]`; `List.drop i` agrees with the Go
slice for every `i ≤ pathParts.length` (for larger `i` — reachable only past
empty pattern segments — the Go program would panic; `drop` totalizes this to
the empty remainder, and no theorem below relies on that region). -/
def matchRouteAux (pathParts : List String) :
    List String → Nat → List (String × String) → MatchOutcome
  | [], _, params => MatchOutcome.done params
  | part :: rest, i, params =>
    if part = "" then
      matchRouteAux pathParts rest (i + 1) params
    else if strStarts part ':' then
      if strEnds part '*' then
        MatchOutcome.hit
          ((trimStar (strTail part), joinSlash (pathParts.drop i)) :: params)
      else if pathParts.length ≤ i then
        MatchOutcome.fail
      else
        matchRouteAux pathParts rest (i + 1)
          ((strTail part, pathParts.getD i "") :: params)
    else if pathParts.length ≤ i then
      MatchOutcome.fail
    else if part ≠ pathParts.getD i "" then
      MatchOutcome.fail
    else
      matchRouteAux pathParts rest (i + 1) params

/-- Go `matchRoute(pattern, path) (map[string]string, bool)`: `none` models
`nil, false`; `some params` models `params, true`.  Splits both strings on
`/`, runs the segment loop, and, when no wildcard ended the loop early,
requires equal segment counts. -/
def matchRoute (pattern path : String) : Option (List (String × String)) :=
  let patternParts := splitOnChar '/' pattern
  let pathParts := splitOnChar '/' path
  match matchRouteAux pathParts patternParts 0 [] with
  | MatchOutcome.fail => none
  | MatchOutcome.hit params => some params
  | MatchOutcome.done params =>
    if patternParts.length = pathParts.length then some params else none

/-- Whether the matcher's run on `pattern`/`path` took the wildcard early
return (the spec's "a wildcard segment was hit"). -/
def hitsWildcard (pattern path : String) : Bool :=
  match matchRouteAux (splitOnChar '/' path) (splitOnChar '/' pattern) 0 [] with
  | MatchOutcome.hit _ => true
  | _ => false

/-- A pattern segment of the wildcard-capture form `:name*`. -/
def isWildcardSeg (s : String) : Bool :=
  strStarts s ':' && strEnds s '*'

/-- Spec side of claim C1, for comparison with `matchRoute`: the parameter
bindings the matcher is specified to produce, in processing order.  Each
`:name` capture before the first wildcard contributes the path segment at its
own position; the first wildcard capture contributes the `/`-join of all path
segments from its own position onward and ends the walk; literal and empty
segments contribute nothing. -/
def captureBindings (pathParts : List String) :
    List String → Nat → List (String × String)
  | [], _ => []
  | part :: rest, i =>
    if part = "" then captureBindings pathParts rest (i + 1)
    else if strStarts part ':' then
      if strEnds part '*' then
        [(trimStar (strTail part), joinSlash (pathParts.drop i))]
      else
        (strTail part, pathParts.getD i "") :: captureBindings pathParts rest (i + 1)
    else captureBindings pathParts rest (i + 1)

/-- A registered route, Go `route{pattern, handler, method}`.  The handler is
an abstract value of type `H` (Go's `HandlerFunc` closure). -/
structure Route (H : Type) where
  pattern : String
  handler : H
  method : String

/-- The route-selection loop of `ServeHTTP` (the `for _, route := range
v.routes` loop): scan the table in registration order and stop at the first
route whose pattern matches the path and whose method equals the request
method; a route whose pattern matches but whose method differs is skipped and
the scan continues.  Returns the selected route together with the params its
pattern match produced. -/
def findRoute {H : Type} (routes : List (Route H)) (method path : String) :
    Option (Route H × List (String × String)) :=
  match routes with
  | [] => none
  | r :: rest =>
    match matchRoute r.pattern path with
    | some ps => if r.method = method then some (r, ps) else findRoute rest method path
    | none => findRoute rest method path

/-- A route matching the request, as the scan condition of `ServeHTTP` tests
it: its pattern matches the path and its method equals the request method. -/
def routeMatches {H : Type} (r : Route H) (method path : String) : Prop :=
  (matchRoute r.pattern path).isSome = true ∧ r.method = method

instance {H : Type} (r : Route H) (method path : String) :
    Decidable (routeMatches r method path) :=
  inferInstanceAs (Decidable (_ ∧ _))

/-- The middleware-application loop of `ServeHTTP`:
`for i := len(v.middlewares) - 1; i >= 0; i-- { handler = v.middlewares[i](handler) }`,
i.e. the last-registered middleware is applied first (innermost) and the
first-registered one last (outermost). -/
def wrapMiddlewares {H : Type} (mws : List (H → H)) (h : H) : H :=
  match mws with
  | [] => h
  | mw :: rest => mw (wrapMiddlewares rest h)

/-- Modelled from the spec: the composite handler the spec writes as
`mw[0](mw[1](...mw[n-1](handler)))` — the left-to-right composition of the
registered middlewares, applied to the handler. -/
def specCompose {H : Type} (mws : List (H → H)) (h : H) : H :=
  (mws.foldl (fun g mw => g ∘ mw) id) h

/-- An observing middleware for the spec's ordering test: middleware `name`
turns a handler (modelled by the event trace it emits) into one that emits
`name:before`, then runs the inner handler, then emits `name:after`. -/
def traceMiddleware (name : String) : List String → List String :=
  fun inner => (name ++ ":before") :: (inner ++ [name ++ ":after"])

/-- Modelled from the spec: the repository's status-code tables (`StatusText`,
`StatusOK` etc.) live in a source file that is not part of the given sources;
the spec fixes the reason strings used here — `200 OK`, `404 Not Found`,
`302 Found`. -/
def StatusText (code : Nat) : String :=
  if code = 200 then "OK"
  else if code = 404 then "Not Found"
  else if code = 302 then "Found"
  else ""

/-- The response context of `context.go`, restricted to the response side:
the accumulated header map, the `didWriteHTTP1Header` flag, and the sequence
of chunks written to the connection so far (each `conn.Write` call appends one
chunk; connection writes are modelled as always succeeding, so the error
branches of `writeHTTP1Header`/`writeHeaders` that only trigger on a failed
socket write are unreachable in the model). -/
structure RespCtx where
  headers : List (String × String)
  didWriteHTTP1Header : Bool
  wire : List String
deriving DecidableEq, Repr

/-- Go `newCtx()`: empty header map, nothing written. -/
def newRespCtx : RespCtx :=
  { headers := [], didWriteHTTP1Header := false, wire := [] }

/-- Go `SetHeader`: map assignment `c.headers[key] = value` — replace the
existing entry for `key` or add one.  (A Go map iterates in unspecified
order; the model fixes insertion order, one of the admissible orders.) -/
def setHeader (c : RespCtx) (key value : String) : RespCtx :=
  { c with headers :=
      if c.headers.any (fun p => p.1 = key) then
        c.headers.map (fun p => if p.1 = key then (key, value) else p)
      else
        c.headers ++ [(key, value)] }

/-- One `Name: Value\r\n` header line as `writeHeaders` formats it. -/
def headerLine (key value : String) : String :=
  key ++ ": " ++ value ++ "\r\n"

/-- The status line as `writeHTTP1Header` formats it:
`HTTP/1.1 <code> <reason>\r\n`. -/
def statusLine (code : Nat) : String :=
  "HTTP/1.1 " ++ toString code ++ " " ++ StatusText code ++ "\r\n"

/-- Go `writeHTTP1Header(statusCode)`: write the status line and set
`didWriteHTTP1Header` (the write is modelled as succeeding, so the function's
error return is `nil`). -/
def writeHTTP1Header (c : RespCtx) (statusCode : Nat) : RespCtx :=
  { c with wire := c.wire ++ [statusLine statusCode], didWriteHTTP1Header := true }

/-- Go `writeHeaders()`: with an empty header map, return `headersError`
(second component `true`) and write nothing; otherwise write every
accumulated `Name: Value\r\n` line followed by the blank line, returning
`nil` (second component `false`). -/
def writeHeaders (c : RespCtx) : RespCtx × Bool :=
  if c.headers.isEmpty then (c, true)
  else
    ({ c with wire := c.wire ++ c.headers.map (fun p => headerLine p.1 p.2) ++ ["\r\n"] },
     false)

/-- Go `ctx.Write(b)`: try `writeHeaders`; on `headersError` (no header set
yet) emit the `200` status line first unless one was already written, set
`Content-Length` to `len(b)` (the byte length of `b`), flush the headers, and
finally write the body bytes themselves. -/
def ctxWrite (c : RespCtx) (b : String) : RespCtx :=
  let r1 := writeHeaders c
  let c2 :=
    if r1.2 then
      let ca := if r1.1.didWriteHTTP1Header then r1.1 else writeHTTP1Header r1.1 200
      let cb := setHeader ca "Content-Length" (toString b.utf8ByteSize)
      (writeHeaders cb).1
    else r1.1
  { c2 with wire := c2.wire ++ [b] }

/-- Go `ctx.String(plain, statusCode)`: status line, then `Content-Type:
text/plain` and `Content-Length: len(plain)` headers, then `Write`. -/
def ctxString (c : RespCtx) (plain : String) (statusCode : Nat) : RespCtx :=
  let c1 := writeHTTP1Header c statusCode
  let c2 := setHeader c1 "Content-Type" "text/plain"
  let c3 := setHeader c2 "Content-Length" (toString plain.utf8ByteSize)
  ctxWrite c3 plain

/-- Go `ctx.Err404()`: status line `404`, `Content-Type: text/html`,
`Content-Length` of the fixed body, then `Write` of that body. -/
def ctxErr404 (c : RespCtx) : RespCtx :=
  let html := "<h1>Error 404 Not Found</h1>"
  let c1 := writeHTTP1Header c 404
  let c2 := setHeader c1 "Content-Type" "text/html"
  let c3 := setHeader c2 "Content-Length" (toString html.utf8ByteSize)
  ctxWrite c3 html

/-- Modelled from the spec: the repository's method constants (`MethodGet`
etc.) live in a source file that is not part of the given sources; the spec's
wire format fixes them to the literal method tokens. -/
def MethodGet : String := "GET"

/-- Modelled from the spec: see `MethodGet`. -/
def MethodPost : String := "POST"

/-- What `ServeHTTP` does with one request, after the connection's bytes have
been read (`raw` is the content of `data[:n]`; a read error would make
`ServeHTTP` return before parsing and is outside the model):

* `malformed` — the request line had fewer than two space-separated tokens:
  `ServeHTTP` returns an error before touching the route table, running any
  handler, or writing any byte; the deferred `conn.Close()` then closes the
  connection.
* `handled h ps` — a route was selected; `h` is its handler wrapped by the
  middleware chain, `ps` the params of the pattern match; `ServeHTTP` itself
  writes nothing before invoking `h`.
* `notFound` — no route selected; `ServeHTTP` writes the fixed `Err404`
  response.

The header-population steps of `ServeHTTP` (host, platform, user-agent,
accept, body) only fill request-accessor fields on the context and cannot
influence which of these outcomes is taken, so they are not part of this
function. -/
inductive ServeResult (H : Type) where
  | malformed : ServeResult H
  | handled : H → List (String × String) → ServeResult H
  | notFound : ServeResult H

/-- The request-line parsing and dispatch path of `ServeHTTP`: split the raw
bytes on CRLF, split line 0 on spaces, reject fewer than two tokens, then
select a route (`findRoute`) and wrap its handler with the middleware chain
(`wrapMiddlewares`). -/
def serveHTTP {H : Type} (routes : List (Route H)) (mws : List (H → H))
    (raw : String) : ServeResult H :=
  let connection := splitCRLF raw
  let reqLine := splitOnChar ' ' (connection.headD "")
  if reqLine.length < 2 then ServeResult.malformed
  else
    let method := reqLine.headD ""
    let path := reqLine.getD 1 ""
    match findRoute routes method path with
    | some rps => ServeResult.handled (wrapMiddlewares mws rps.1.handler) rps.2
    | none => ServeResult.notFound

/-- The response chunks `ServeHTTP` itself writes to the connection for each
outcome, before (or instead of) any handler output: nothing on the malformed
early return, nothing on the handled path (the handler writes), and the
`Err404` response when no route matched. -/
def responseWrites {H : Type} : ServeResult H → List String
  | ServeResult.malformed => []
  | ServeResult.handled _ _ => []
  | ServeResult.notFound => (ctxErr404 newRespCtx).wire

/-- The registration-side state of a `Vermouth` server: the route table, the
middleware chain, and the `patternGroup` field that `Group` sets.  Go's
`Group` mutates the receiver and returns the same pointer, so in this
state-passing model the "returned registrar" and the "original server" are
one and the same state. -/
structure ServerState (H : Type) where
  routes : List (Route H)
  middlewares : List (H → H)
  patternGroup : String

/-- Go `New()`: empty routes and middlewares; `patternGroup` is the zero
value `""`. -/
def newServer (H : Type) : ServerState H :=
  { routes := [], middlewares := [], patternGroup := "" }

/-- Go `Use(mw)`: append to the middleware chain. -/
def use {H : Type} (s : ServerState H) (mw : H → H) : ServerState H :=
  { s with middlewares := s.middlewares ++ [mw] }

/-- Go `Group(pattern)`: panics (`none`) unless the pattern starts with `/`
(indexing `pattern[0]` on an empty string also panics), strips one trailing
`/`, stores the result in the server's own `patternGroup` field, and returns
the same server. -/
def group {H : Type} (s : ServerState H) (pattern : String) :
    Option (ServerState H) :=
  match pattern.data with
  | [] => none
  | c :: _ =>
    if c ≠ '/' then none
    else
      let pattern2 := if strEnds pattern '/' then ⟨pattern.data.dropLast⟩ else pattern
      some { s with patternGroup := pattern2 }

/-- Go `handleFunc(method, pattern, fn)`: append the route. -/
def handleFunc {H : Type} (s : ServerState H) (method pattern : String) (h : H) :
    ServerState H :=
  { s with routes := s.routes ++ [{ pattern := pattern, handler := h, method := method }] }

/-- Go `GET(pattern, fn)`: prepend the server's current `patternGroup` to the
pattern, then register. -/
def get {H : Type} (s : ServerState H) (pattern : String) (h : H) : ServerState H :=
  handleFunc s MethodGet (s.patternGroup ++ pattern) h

/-- Go `POST(pattern, fn)`: prepend the server's current `patternGroup` to the
pattern, then register. -/
def post {H : Type} (s : ServerState H) (pattern : String) (h : H) : ServerState H :=
  handleFunc s MethodPost (s.patternGroup ++ pattern) h

/-- Go `strings.Cut(s, "=")` as `url.ParseQuery` uses it: the part before the
first `=` and the part after it (all of `s` and `""` when there is none). -/
def cutEq : List Char → List Char × List Char
  | [] => ([], [])
  | '=' :: rest => ([], rest)
  | c :: rest =>
    let kv := cutEq rest
    (c :: kv.1, kv.2)

/-- Go `url.ParseQuery(s)`, restricted to its splitting structure: components
around `&`, empty components skipped, each component cut at its first `=`.
Percent-decoding of keys and values (and the error cases that come with it)
is not modelled; no claim below depends on it. -/
def parseQuery (s : String) : List (String × String) :=
  (splitOnChar '&' s).filterMap fun comp =>
    if comp = "" then none
    else
      let kv := cutEq comp.data
      some (⟨kv.1⟩, ⟨kv.2⟩)

/-- The request-body state of a context: `none` models `c.body == nil` (no
body was set); `some s` models a set body stream whose still-unread content
is `s`.  The source wraps the body in `io.NopCloser`, whose `Close` is a
no-op, so closing neither clears the handle nor rewinds the stream. -/
structure BodyCtx where
  body : Option String
deriving DecidableEq, Repr

/-- Go `ctx.ParseForm()`: error when no body was ever set; otherwise
`io.ReadAll` drains the stream (leaving it at EOF), the deferred
`c.body.Close()` is a no-op on the `NopCloser`, and the drained bytes are
parsed as a query string.  Returns the context as mutated plus the call's
result. -/
def parseForm (c : BodyCtx) : BodyCtx × Except String (List (String × String)) :=
  match c.body with
  | none => (c, Except.error "No request body to read")
  | some remaining => ({ body := some "" }, Except.ok (parseQuery remaining))

/-- One schedule of the accept loop in `Start`.  `serveResults` lists, in
accept order, the error value (`some e`) or nil (`none`) that `ServeHTTP`
returns for each accepted connection; `pending` is the value sitting in
`errch`, if any.  The modelled schedule: each spawned serve goroutine
completes and sends its result before the `select` of the following loop
iteration runs, so that `select` receives the previous connection's result
(the first iteration's `select` takes its `default` branch).  The function
returns `some e` when `Start` returns the error `e`, and `none` when the loop
is still accepting after the listed connections. -/
def startRun (pending : Option (Option String)) :
    List (Option String) → Option String
  | [] => none
  | r :: rest =>
    match pending with
    | some (some e) => some e
    | _ => startRun (some r) rest

/-- The params carried by a non-failing match outcome (`hit` or `done`). -/
def MatchOutcome.params? : MatchOutcome → Option (List (String × String))
  | MatchOutcome.fail => none
  | MatchOutcome.hit ps => some ps
  | MatchOutcome.done ps => some ps

theorem matchRouteAux_eq_bindings (pathParts : List String) :
    ∀ (parts : List String) (i : Nat) (params ps : List (String × String)),
      (matchRouteAux pathParts parts i params).params? = some ps →
      ps = (captureBindings pathParts parts i).reverse ++ params := by
  intro parts
  induction parts with
  | nil =>
    intro i params ps h
    simp only [matchRouteAux, MatchOutcome.params?, Option.some.injEq] at h
    simp [captureBindings, h.symm]
  | cons part rest ih =>
    intro i params ps h
    simp only [matchRouteAux] at h
    simp only [captureBindings]
    split at h
    next hemp =>
      rw [if_pos hemp]
      exact ih _ _ _ h
    next hemp =>
      rw [if_neg hemp]
      split at h
      next hcol =>
        rw [if_pos hcol]
        split at h
        next hstar =>
          rw [if_pos hstar]
          simp only [MatchOutcome.params?, Option.some.injEq] at h
          simp [h.symm]
        next hstar =>
          rw [if_neg hstar]
          split at h
          next hlen =>
            simp [MatchOutcome.params?] at h
          next hlen =>
            have := ih _ _ _ h
            rw [this]
            simp [List.reverse_cons, List.append_assoc]
      next hcol =>
        rw [if_neg hcol]
        split at h
        next hlen =>
          simp [MatchOutcome.params?] at h
        next hlen =>
          split at h
          next hne =>
            simp [MatchOutcome.params?] at h
          next hne =>
            exact ih _ _ _ h

/-- C1, amended: when `matchRoute pattern path` succeeds, the returned params
are exactly (the Go-map representation of) the bindings in which each `:name`
segment before the first wildcard is bound to the path segment at the same
position verbatim and the first `:name*` wildcard segment is bound to the
slash-join of all remaining path segments from its position onward, matching
ending immediately there; a params lookup (`List.lookup`, like a Go map read)
returns the most recent of these bindings when a name is bound more than
once. -/
theorem matchRoute_bindings_of_match (pattern path : String)
    (ps : List (String × String)) (h : matchRoute pattern path = some ps) :
    ps = (captureBindings (splitOnChar '/' path) (splitOnChar '/' pattern) 0).reverse := by
  have haux : (matchRouteAux (splitOnChar '/' path) (splitOnChar '/' pattern) 0 []).params?
      = some ps := by
    simp only [matchRoute] at h
    split at h
    next heq =>
      exact Option.noConfusion h
    next ps0 heq =>
      rw [heq]
      simpa [MatchOutcome.params?] using h
    next ps0 heq =>
      rw [heq]
      simp only [MatchOutcome.params?]
      split at h
      · exact h
      · exact Option.noConfusion h
  have := matchRouteAux_eq_bindings (splitOnChar '/' path)
    (splitOnChar '/' pattern) 0 [] ps haux
  simpa using this

/-- C1, counterexample to the claim as stated: for the registered pattern
`/:a/:a` and the matching path `/x/y`, the first `:a` segment (position 1) is
not bound to the path segment `x` at the same position — the returned mapping
reads `y` for `a`, because the later binding overwrote the earlier one. -/
theorem matchRoute_duplicate_name_counterexample :
    matchRoute "/:a/:a" "/x/y" = some [("a", "y"), ("a", "x")] ∧
    (splitOnChar '/' "/:a/:a").getD 1 "" = ":a" ∧
    (splitOnChar '/' "/x/y").getD 1 "" = "x" ∧
    List.lookup "a" [("a", "y"), ("a", "x")] ≠ some "x" := by
  refine ⟨by decide, by decide, by decide, by decide⟩

theorem matchRoute_bindings_of_match_witness :
    matchRoute "/user/:id/:rest*" "/user/42/a/b"
      = some [("rest", "a/b"), ("id", "42")] ∧
    [("rest", "a/b"), ("id", "42")]
      = (captureBindings (splitOnChar '/' "/user/42/a/b")
          (splitOnChar '/' "/user/:id/:rest*") 0).reverse :=
  ⟨by decide,
   matchRoute_bindings_of_match "/user/:id/:rest*" "/user/42/a/b"
     [("rest", "a/b"), ("id", "42")] (by decide)⟩

theorem matchRouteAux_literal_mismatch_fail (pathParts : List String) :
    ∀ (parts : List String) (k : Nat) (params : List (String × String)) (i : Nat),
      i < parts.length →
      parts.getD i "" ≠ "" →
      strStarts (parts.getD i "") ':' = false →
      (∀ j, j < i → isWildcardSeg (parts.getD j "") = false) →
      (pathParts.length ≤ k + i ∨ pathParts.getD (k + i) "" ≠ parts.getD i "") →
      matchRouteAux pathParts parts k params = MatchOutcome.fail := by
  intro parts
  induction parts with
  | nil =>
    intro k params i hi
    simp at hi
  | cons part rest ih =>
    intro k params i hi hne hcol hwild hmis
    match i with
    | 0 =>
      simp only [List.getD_cons_zero] at hne hcol hmis
      simp only [matchRouteAux, if_neg hne]
      rw [if_neg (by simp [hcol])]
      rcases hmis with hlen | hv
      · rw [if_pos (by simpa using hlen)]
      · by_cases hlen : pathParts.length ≤ k
        · rw [if_pos hlen]
        · rw [if_neg hlen, if_pos (by simpa using Ne.symm hv)]
    | j + 1 =>
      simp only [List.getD_cons_succ] at hne hcol hmis
      have hshift : k + (j + 1) = (k + 1) + j := by omega
      rw [hshift] at hmis
      have hwild0 : isWildcardSeg part = false := by
        simpa using hwild 0 (Nat.succ_pos j)
      have hwild' : ∀ j2, j2 < j → isWildcardSeg (rest.getD j2 "") = false := by
        intro j2 hj2
        simpa using hwild (j2 + 1) (Nat.succ_lt_succ hj2)
      have hi' : j < rest.length := Nat.lt_of_succ_lt_succ (by simpa using hi)
      by_cases hemp : part = ""
      · simp only [matchRouteAux, if_pos hemp]
        exact ih (k + 1) params j hi' hne hcol hwild' hmis
      · simp only [matchRouteAux, if_neg hemp]
        by_cases hc : strStarts part ':' = true
        · rw [if_pos hc]
          have hstar : strEnds part '*' = false := by
            have := hwild0
            simp only [isWildcardSeg, hc, Bool.true_and] at this
            exact this
          rw [if_neg (by simp [hstar])]
          by_cases hlen : pathParts.length ≤ k
          · rw [if_pos hlen]
          · rw [if_neg hlen]
            exact ih (k + 1) ((strTail part, pathParts.getD k "") :: params) j
              hi' hne hcol hwild' hmis
        · rw [if_neg hc]
          by_cases hlen : pathParts.length ≤ k
          · rw [if_pos hlen]
          · rw [if_neg hlen]
            by_cases hv : part = pathParts.getD k ""
            · rw [if_neg (by simpa using hv)]
              exact ih (k + 1) params j hi' hne hcol hwild' hmis
            · rw [if_pos (by simpa using hv)]

/-- C2, amended: `matchRoute` fails whenever some nonempty literal pattern
segment located before the first wildcard segment differs (exactly,
case-sensitively) from the path segment at the same position or lies beyond
the end of the path — empty pattern segments are skipped by the matcher and
impose no such constraint — and also fails whenever no wildcard segment was
hit and the total number of `/`-split segments of pattern and path differ. -/
theorem matchRoute_fail_conditions (pattern path : String) :
    (∀ i : Nat,
        i < (splitOnChar '/' pattern).length →
        (splitOnChar '/' pattern).getD i "" ≠ "" →
        strStarts ((splitOnChar '/' pattern).getD i "") ':' = false →
        (∀ j, j < i → isWildcardSeg ((splitOnChar '/' pattern).getD j "") = false) →
        ((splitOnChar '/' path).length ≤ i ∨
          (splitOnChar '/' path).getD i "" ≠ (splitOnChar '/' pattern).getD i "") →
        matchRoute pattern path = none) ∧
    (hitsWildcard pattern path = false →
        (splitOnChar '/' pattern).length ≠ (splitOnChar '/' path).length →
        matchRoute pattern path = none) := by
  constructor
  · intro i hi hne hcol hwild hmis
    have hfail := matchRouteAux_literal_mismatch_fail (splitOnChar '/' path)
      (splitOnChar '/' pattern) 0 [] i hi hne hcol hwild (by simpa using hmis)
    simp [matchRoute, hfail]
  · intro hw hlen
    simp only [hitsWildcard] at hw
    simp only [matchRoute]
    rcases hm : matchRouteAux (splitOnChar '/' path) (splitOnChar '/' pattern) 0 []
      with _ | ps0 | ps0
    · rfl
    · rw [hm] at hw
      simp at hw
    · show (if (splitOnChar '/' pattern).length = (splitOnChar '/' path).length
            then some ps0 else none) = none
      exact if_neg hlen

/-- C2, counterexample to the claim as stated: the pattern `//a` has the
literal segment `""` at position 1, the path `/x/a` has the different segment
`x` there, yet `matchRoute` succeeds — the matcher skips empty pattern
segments instead of comparing them. -/
theorem matchRoute_empty_segment_counterexample :
    matchRoute "//a" "/x/a" = some [] ∧
    (splitOnChar '/' "//a").getD 1 "" = "" ∧
    strStarts ((splitOnChar '/' "//a").getD 1 "") ':' = false ∧
    (splitOnChar '/' "/x/a").getD 1 "" = "x" ∧
    (splitOnChar '/' "//a").getD 1 "" ≠ (splitOnChar '/' "/x/a").getD 1 "" := by
  refine ⟨by decide, by decide, by decide, by decide, by decide⟩

theorem matchRoute_fail_conditions_witness :
    matchRoute "/a/b" "/a/c" = none ∧ matchRoute "/a" "/a/b" = none :=
  ⟨(matchRoute_fail_conditions "/a/b" "/a/c").1 2 (by decide) (by decide) (by decide)
      (by decide) (by decide),
   (matchRoute_fail_conditions "/a" "/a/b").2 (by decide) (by decide)⟩

/-- C3: the dispatcher's route selection scans the route table in
registration order and selects the first route whose pattern matches the
request path and whose method equals the request method exactly; duplicates
are allowed, and whenever no earlier-registered route matches the request,
the route at position `i` that does match is the one selected, together with
the params of its pattern match (its handler is the one then invoked). -/
theorem findRoute_first_match {H : Type} (routes : List (Route H))
    (method path : String) (i : Nat) (hi : i < routes.length)
    (hm : routeMatches (routes.get ⟨i, hi⟩) method path)
    (hfirst : ∀ r2 ∈ routes.take i, ¬ routeMatches r2 method path) :
    ∃ ps, matchRoute (routes.get ⟨i, hi⟩).pattern path = some ps ∧
      findRoute routes method path = some (routes.get ⟨i, hi⟩, ps) := by
  induction routes generalizing i with
  | nil => simp at hi
  | cons r rest ih =>
    match i with
    | 0 =>
      obtain ⟨hsome, hmeth⟩ := hm
      obtain ⟨ps, hps⟩ := Option.isSome_iff_exists.mp (by simpa using hsome)
      refine ⟨ps, by simpa using hps, ?_⟩
      simp [findRoute, hps, hmeth]
      simp at hmeth
      simp [hmeth]
    | i + 1 =>
      have hi' : i < rest.length := Nat.lt_of_succ_lt_succ (by simpa using hi)
      have hm' : routeMatches (rest.get ⟨i, hi'⟩) method path := by
        simpa using hm
      have h0 : ¬ routeMatches r method path := by
        apply hfirst
        simp [List.take_succ_cons]
      have hfirst' : ∀ r2 ∈ rest.take i, ¬ routeMatches r2 method path := by
        intro r2 h2
        apply hfirst
        simp [List.take_succ_cons]
        exact Or.inr h2
      obtain ⟨ps, hps, hfind⟩ := ih i hi' hm' hfirst'
      refine ⟨ps, by simpa using hps, ?_⟩
      rcases hr : matchRoute r.pattern path with _ | ps2
      · simpa [findRoute, hr] using hfind
      · by_cases hmeth : r.method = method
        · exact absurd ⟨by simp [hr], hmeth⟩ h0
        · simpa [findRoute, hr, hmeth] using hfind

theorem findRoute_first_match_witness :
    findRoute [Route.mk "/users/:id" (1 : Nat) "GET", Route.mk "/users/static" 2 "GET"]
      "GET" "/users/static"
      = some (Route.mk "/users/:id" 1 "GET", [("id", "static")]) := by
  obtain ⟨ps, hps, hfind⟩ :=
    findRoute_first_match
      [Route.mk "/users/:id" (1 : Nat) "GET", Route.mk "/users/static" 2 "GET"]
      "GET" "/users/static" 0 (by decide)
      (by constructor
          · decide
          · decide)
      (by intro r2 h2; simp at h2)
  simp only [List.get] at hps hfind
  have hval : matchRoute "/users/:id" "/users/static" = some [("id", "static")] := by
    decide
  rw [hval] at hps
  injection hps with hps2
  rw [hfind, ← hps2]

theorem foldl_comp_apply {H : Type} (mws : List (H → H)) :
    ∀ (g : H → H) (h : H),
      (mws.foldl (fun g2 mw => g2 ∘ mw) g) h = g (wrapMiddlewares mws h) := by
  induction mws with
  | nil => intro g h; rfl
  | cons mw rest ih =>
    intro g h
    simp only [List.foldl_cons, wrapMiddlewares]
    rw [ih (g ∘ mw) h]
    rfl

/-- C4: for middlewares registered via `Use` in order `mw[0], …, mw[n-1]` and
a matched handler `h`, the dispatcher's wrapping loop produces exactly the
spec's composite `mw[0] (mw[1] (… (mw[n-1] h)…))`, so the first-registered
middleware is outermost; instantiated with observing middlewares, the
resulting event trace is all `before` events in registration order, then the
handler's events, then the `after` events in reverse registration order —
`mw[0]` observes the request before every other middleware and the handler,
and the response after all of them. -/
theorem wrapMiddlewares_order :
    (∀ (H : Type) (mws : List (H → H)) (h : H),
        wrapMiddlewares mws h = specCompose mws h) ∧
    (∀ (names : List String) (t : List String),
        wrapMiddlewares (names.map traceMiddleware) t
          = names.map (fun n => n ++ ":before") ++ t
            ++ names.reverse.map (fun n => n ++ ":after")) := by
  constructor
  · intro H mws h
    rw [specCompose, foldl_comp_apply mws id h]
    rfl
  · intro names t
    induction names with
    | nil => simp [wrapMiddlewares]
    | cons n rest ih =>
      simp only [List.map_cons, wrapMiddlewares, traceMiddleware, ih,
        List.reverse_cons, List.map_append, List.map_cons, List.map_nil,
        List.cons_append, List.append_assoc, List.nil_append]

/-- C5: when the first CRLF-delimited line of the raw request splits on
spaces into fewer than two tokens, decoding fails with the
malformed-request-line error: `ServeHTTP` returns before selecting any route
or running any handler, and writes no response bytes to the connection —
which the deferred `conn.Close()` then closes without a response. -/
theorem serveHTTP_malformed_request_line {H : Type} (routes : List (Route H))
    (mws : List (H → H)) (raw : String)
    (h : (splitOnChar ' ' ((splitCRLF raw).headD "")).length < 2) :
    serveHTTP routes mws raw = ServeResult.malformed ∧
      responseWrites (serveHTTP routes mws raw) = [] := by
  have hs : serveHTTP routes mws raw = ServeResult.malformed := by
    simp only [serveHTTP]
    rw [if_pos h]
  exact ⟨hs, by rw [hs]; rfl⟩

theorem serveHTTP_malformed_request_line_witness :
    (splitOnChar ' ' ((splitCRLF "BADREQUEST\r\nHost: x").headD "")).length < 2 ∧
      (serveHTTP ([] : List (Route Nat)) [] "BADREQUEST\r\nHost: x"
          = ServeResult.malformed ∧
        responseWrites (serveHTTP ([] : List (Route Nat)) [] "BADREQUEST\r\nHost: x")
          = []) :=
  ⟨by decide,
   serveHTTP_malformed_request_line [] [] "BADREQUEST\r\nHost: x" (by decide)⟩

/-- C6, the failing input evaluated: `Group` stores the (slash-checked,
trailing-slash-stripped) prefix in the server's own `patternGroup` field and
returns that same server, so a route registered directly on the original
server after the `Group` call gets the prefix too — `Group("/user")` followed
by `POST("/json", h)` on the server registers the pattern `/user/json`, not
`/json` as scoping to the returned registrar would require. -/
theorem group_then_direct_post_gets_group_pattern :
    (group (newServer Nat) "/user").map
        (fun s => (post s "/json" 0).routes.map Route.pattern)
      = some ["/user/json"] := by
  decide

/-- C7: writing a plain-text body with status 200 through the response
context (`ctx.String(plain, 200)`) puts on the wire the status line
`HTTP/1.1 200 OK` followed by CRLF, a `Content-Length` header whose value is
the exact byte length of the body written, a blank line, and exactly the
body's bytes after the blank line (a `Content-Type: text/plain` header is
also emitted; the claim does not constrain header order, and the listed
order is the one admissible map order the model fixes). -/
theorem ctxString_frames_response (plain : String) :
    (ctxString newRespCtx plain 200).wire
      = [statusLine 200,
         headerLine "Content-Type" "text/plain",
         headerLine "Content-Length" (toString plain.utf8ByteSize),
         "\r\n", plain] ∧
    statusLine 200 = "HTTP/1.1 200 OK\r\n" := by
  exact ⟨rfl, rfl⟩

/-- C8, counterexample to the claim as stated: with the body stream `a=b`,
the first `ParseForm` call succeeds and drains the stream, and the second
decode attempt does not fail at all — it returns an empty form with no
error; no `BodyAlreadyConsumed` failure exists in the code. -/
theorem parseForm_second_call_counterexample :
    (parseForm (BodyCtx.mk (some "a=b"))).2 = Except.ok [("a", "b")] ∧
    (parseForm (parseForm (BodyCtx.mk (some "a=b"))).1).2 = Except.ok [] := by
  exact ⟨rfl, rfl⟩

/-- C8, amended: the first decode call consumes the body stream (reads it to
EOF); but the close performed on it is the `NopCloser` no-op and the body
handle is not cleared, so a second `ParseForm` attempt after the first does
not fail with a `BodyAlreadyConsumed` error — it succeeds, returning the
empty form parsed from the drained stream. -/
theorem parseForm_second_call_succeeds (c : BodyCtx) (s : String)
    (h : c.body = some s) :
    (parseForm c).1.body = some "" ∧
    (parseForm (parseForm c).1).2 = Except.ok [] := by
  obtain ⟨b⟩ := c
  have hb : b = some s := h
  subst hb
  exact ⟨rfl, rfl⟩

theorem parseForm_second_call_witness :
    (BodyCtx.mk (some "x=1")).body = some "x=1" ∧
    ((parseForm (BodyCtx.mk (some "x=1"))).1.body = some "" ∧
      (parseForm (parseForm (BodyCtx.mk (some "x=1"))).1).2 = Except.ok []) :=
  ⟨rfl, parseForm_second_call_succeeds (BodyCtx.mk (some "x=1")) "x=1" rfl⟩

/-- C9, the failing input evaluated: in the modelled schedule of `Start`'s
accept loop, when the first accepted connection's serve returns an error
(`ServeHTTP` forwards the handler's returned error) and a second connection
is then accepted, the `select` receives that error from `errch` and `Start`
returns it — the accept loop stops even though the listener never failed.
By contrast, a run whose serves all return nil keeps accepting. -/
theorem start_returns_on_handler_error :
    startRun none [some "handler failed", none] = some "handler failed" ∧
    startRun none [none, none] = none := by
  exact ⟨rfl, rfl⟩

/-- C10: calling `Write(b)` on a fresh response context — no response method
called, no header set — emits a complete framed response by itself: the
`HTTP/1.1 200 OK` status line, a `Content-Length` header whose value is the
byte length of `b`, a blank line, and then exactly the bytes of `b`: a
handler that only calls `Write` still produces a well-formed 200 response. -/
theorem ctxWrite_fresh_frames_response (b : String) :
    (ctxWrite newRespCtx b).wire
      = [statusLine 200,
         headerLine "Content-Length" (toString b.utf8ByteSize),
         "\r\n", b] ∧
    statusLine 200 = "HTTP/1.1 200 OK\r\n" := by
  exact ⟨rfl, rfl⟩

example : matchRoute "/user/:id" "/user/42" = some [("id", "42")] := by decide

example : matchRoute "/user/:id/:rest*" "/user/42/a/b"
    = some [("rest", "a/b"), ("id", "42")] := by decide

example : matchRoute "/a/b" "/a/c" = none := by decide

example : matchRoute "/a" "/a/b" = none := by decide

example : matchRoute "/:a/:a" "/x/y" = some [("a", "y"), ("a", "x")] := by decide

example : matchRoute "//a" "/x/a" = some [] := by decide
